import Mathlib

/-!
Verification of the Streaming Diff-Edit Coordinator of this repository.

JavaScript strings are modelled as lists of UTF-16 code units (`List Char`);
the host editor's text document is modelled as such a list together with the
position/range semantics the host applies when an edit is validated (lines are
the segments between LF characters, positions beyond the document clamp to the
end of the last line).  Stateful components are modelled as explicit state
passing; fallible operations return `Except`.
-/

deriving instance DecidableEq for Except

namespace RooDiff

/-- A JavaScript string: a list of UTF-16 code units. -/
abbrev JStr := List Char

/-- The UTF-8 byte order mark code point U+FEFF. -/
def bomFEFF : Char := '\uFEFF'

/-- The reversed byte order mark code point U+FFFE. -/
def bomFFFE : Char := '\uFFFE'

/-- JavaScript `s.split("\n")`: the segments of `s` between LF characters.
The result always has at least one element; a trailing LF yields a trailing
empty segment. -/
def splitOnNl : JStr → List JStr
  | [] => [[]]
  | '\n' :: t => [] :: splitOnNl t
  | c :: t =>
    match splitOnNl t with
    | [] => [[c]]
    | l :: ls => (c :: l) :: ls

/-- JavaScript `lines.join("\n")`. -/
def joinNl : List JStr → JStr
  | [] => []
  | [l] => l
  | l :: ls => l ++ '\n' :: joinNl ls

/-- JavaScript `s.endsWith("\n")`. -/
def endsWithNl (s : JStr) : Bool :=
  match s.getLast? with
  | some c => c = '\n'
  | none => false

/-- One application of `replace(/^X/, "")` for a single character `X`:
removes `c` from the front of the string if present. -/
def stripLeadingChar (c : Char) : JStr → JStr
  | [] => []
  | a :: t => if a = c then t else a :: t

/-- One application of `replace(/X/g, "")` for a single character `X`:
removes every occurrence of `c`. -/
def removeAllChar (c : Char) (s : JStr) : JStr :=
  s.filter (fun a => a ≠ c)

/-- One iteration of the `while` body of `FileContentManager.stripAllBOMs`:
strip a leading U+FEFF, strip a leading U+FFFE, then remove every U+FEFF and
every U+FFFE anywhere in the string. -/
def bomPass (s : JStr) : JStr :=
  removeAllChar bomFFFE (removeAllChar bomFEFF (stripLeadingChar bomFFFE (stripLeadingChar bomFEFF s)))

/-- The `while (hasMoreBOMs)` loop of `FileContentManager.stripAllBOMs`,
iterating `bomPass` until a fixed point.  The loop is given `fuel` steps;
`stripAllBOMs` supplies enough fuel to reach the fixed point (each pass either
returns its input unchanged, terminating the loop, or removes characters). -/
def stripBOMLoop : Nat → JStr → JStr
  | 0, s => s
  | fuel + 1, s =>
    let r := bomPass s
    if r = s then s else stripBOMLoop fuel r

/-- `FileContentManager.stripAllBOMs`: repeatedly removes UTF-8 and UTF-16
byte order marks anywhere in the string until a fixed point is reached. -/
def stripAllBOMs (s : JStr) : JStr :=
  stripBOMLoop (s.length + 1) s

/-- `FileContentManager.normalizeEOL`: JavaScript
`content.replace(/\r\n|\n/g, targetEOL)`.  The regex alternation prefers the
two-character CRLF match; a bare CR is left untouched. -/
def normalizeEOL (content : JStr) (target : JStr) : JStr :=
  match content with
  | '\r' :: '\n' :: t => target ++ normalizeEOL t target
  | '\n' :: t => target ++ normalizeEOL t target
  | c :: t => c :: normalizeEOL t target
  | [] => []

/-- JavaScript `content.includes("\r\n")`. -/
def hasCRLF : JStr → Bool
  | '\r' :: '\n' :: _ => true
  | _ :: t => hasCRLF t
  | [] => false

/-- `FileContentManager.detectLineEnding`: CRLF if the content contains any
CRLF sequence, otherwise LF. -/
def detectLineEnding (content : JStr) : JStr :=
  if hasCRLF content then ['\r', '\n'] else ['\n']

/-! Host text-document semantics.  The host validates each position of an
edit range against the current document: a line number at or beyond the line
count clamps to the end of the document, and a character offset beyond the
line's length clamps to the line's length.  A validated position is converted
to a character offset and the edit splices the document at the offsets. -/

/-- Character offset of validated position `(line, col)` in document `doc`. -/
def validatedOffset (doc : JStr) (line col : Nat) : Nat :=
  let ls := splitOnNl doc
  if line < ls.length then
    ((ls.take line).map List.length).sum + line + min col (ls.getD line []).length
  else
    doc.length

/-- Host semantics of `WorkspaceEdit.replace` on a single document: replace
the text between the validated positions with `text`. -/
def replaceRange (doc : JStr) (startLine startCol endLine endCol : Nat) (text : JStr) : JStr :=
  doc.take (validatedOffset doc startLine startCol) ++ text ++ doc.drop (validatedOffset doc endLine endCol)

/-- Host semantics of `WorkspaceEdit.delete`. -/
def deleteRange (doc : JStr) (startLine startCol endLine endCol : Nat) : JStr :=
  replaceRange doc startLine startCol endLine endCol []

/-- The private `stripAllBOMs` of `StreamingContentUpdater`: JavaScript
`input.replace` of a leading U+FEFF with the empty string, removing only a single leading U+FEFF. -/
def stripLeadingBOM (s : JStr) : JStr :=
  stripLeadingChar bomFEFF s

/-- `StreamingContentUpdater.finalizeFinalContent`, acting on the document
text.  `streamedLines` is the line list recorded by the caller just before
this runs; `accumulatedContent` and `originalContent` are the caller's
arguments.  Deletes lines beyond the streamed line count, appends a trailing
LF to the accumulated content when the original content ended with one and
the accumulated content does not, then replaces the range from the document
start through line `max (originalLines.length - 1) 0` with the result. -/
def finalizeFinalContent (doc : JStr) (streamedLines : List JStr) (accumulatedContent : JStr)
    (originalContent : JStr) : JStr :=
  let lineCount := (splitOnNl doc).length
  let doc2 :=
    if streamedLines.length < lineCount then
      deleteRange doc streamedLines.length 0 lineCount 0
    else doc
  let acc2 :=
    if endsWithNl originalContent && !endsWithNl accumulatedContent then
      accumulatedContent ++ ['\n']
    else accumulatedContent
  let originalLines := splitOnNl originalContent
  let endLineForRange := max (originalLines.length - 1) 0
  replaceRange doc2 0 0 endLineForRange 0 (stripLeadingBOM acc2)

/-- `StreamingContentUpdater.updateStreamingContent`, acting on the document
text `doc` of the given editor.  Splits the accumulated content on LF,
dropping the trailing partial line when not final; replaces the document from
the top through the last complete line; when final, additionally runs
`finalizeFinalContent`. -/
def updateStreamingContent (doc : JStr) (accumulatedContent : JStr) (isFinal : Bool)
    (originalContent : JStr) : JStr :=
  let accumulatedLines :=
    if isFinal then splitOnNl accumulatedContent else (splitOnNl accumulatedContent).dropLast
  let endLine := accumulatedLines.length
  let contentToReplace :=
    if isFinal then
      joinNl accumulatedLines ++ (if 0 < accumulatedLines.length then ['\n'] else [])
    else accumulatedContent
  let doc1 := replaceRange doc 0 0 endLine 0 (stripLeadingBOM contentToReplace)
  if isFinal then
    finalizeFinalContent doc1 accumulatedLines accumulatedContent originalContent
  else doc1

/-- `StreamingContentUpdater.shouldScrollEditor`: true when the first visible
range's start line is strictly below the end line and its end line strictly
above it.  A visible range is modelled as a pair of start and end lines. -/
def shouldScrollEditor (visibleRanges : List (Nat × Nat)) (endLine : Nat) : Bool :=
  match visibleRanges with
  | [] => false
  | (s, e) :: _ => decide (s < endLine) && decide (e > endLine)

/-- Modelled from the spec: the new end-of-content line counts as off-screen
when it lies outside the first visible range (or nothing is visible); used
only to compare `shouldScrollEditor` with the spec's wording that a scroll
happens only when the new content would otherwise be off-screen. -/
def offScreenSpec (visibleRanges : List (Nat × Nat)) (endLine : Nat) : Bool :=
  match visibleRanges with
  | [] => true
  | (s, e) :: _ => decide (endLine < s) || decide (e < endLine)

/-! Save/revert operation handler (`DiffOperationHandler`). -/

/-- Result of `DiffOperationHandler.saveChanges` together with the argument
of the `writeFile` call it issues. -/
structure HandlerSaveResult where
  newProblemsMessage : JStr
  userEdits : Option JStr
  finalContent : JStr
  written : JStr
deriving DecidableEq

/-- Content pipeline of `DiffOperationHandler.saveChanges`: the live editor
text `editedContent` is BOM-stripped, the target EOL is detected from the
proposed `newContent`, both are normalized to that EOL; `userEdits` is the
raw editor text exactly when the normalized texts differ; the normalized
edited content is written to disk and returned as `finalContent`.
`problemsIfEnabled` stands for the diagnostics manager's message, consulted
only when diagnostics are enabled. -/
def saveChangesHandler (editedContent : JStr) (newContent : JStr) (problemsIfEnabled : JStr)
    (diagnosticsEnabled : Bool) : HandlerSaveResult :=
  let newProblemsMessage := if diagnosticsEnabled then problemsIfEnabled else []
  let strippedEditedContent := stripAllBOMs editedContent
  let newContentEOL := detectLineEnding newContent
  let normalizedEditedContent := normalizeEOL strippedEditedContent newContentEOL
  let normalizedNewContent := normalizeEOL newContent newContentEOL
  let userEdits := if normalizedEditedContent = normalizedNewContent then none else some editedContent
  { newProblemsMessage := newProblemsMessage
    userEdits := userEdits
    finalContent := normalizedEditedContent
    written := normalizedEditedContent }

/-! File I/O gateway (`FileContentManager`), modelled over an abstract
filesystem state of existing file paths and existing directory paths. -/

/-- Abstract filesystem state: the set of existing files and directories. -/
structure FS where
  files : List String
  dirs : List String
deriving DecidableEq

/-- `FileContentManager.fileExists`. -/
def fileExists (fs : FS) (p : String) : Bool :=
  fs.files.contains p

/-- `FileContentManager.deleteFile`: `fs.unlink` removes the file; on failure
(no such file) the error is wrapped with the path and raised. -/
def deleteFile (fs : FS) (p : String) : Except String FS :=
  if fs.files.contains p then
    Except.ok { fs with files := fs.files.filter (fun q => q ≠ p) }
  else
    Except.error (("Failed to delete file ") ++ p)

/-- One rmdir attempt per list entry, in list order: a failed removal
(modelled by the `canRemove` oracle returning false: directory not empty or
already gone) is caught, logged and skipped.  Returns the resulting
filesystem and the sequence of paths in the order they were attempted. -/
def removeDirsLoop (canRemove : String → Bool) (fs : FS) : List String → FS × List String
  | [] => (fs, [])
  | d :: rest =>
    let fs' :=
      if canRemove d then { fs with dirs := fs.dirs.filter (fun q => q ≠ d) }
      else fs
    let r := removeDirsLoop canRemove fs' rest
    (r.1, d :: r.2)

/-- `FileContentManager.removeDirectories`: iterates the given list from the
last entry to the first (the `for` loop runs the index from
`directories.length - 1` down to `0`), attempting `fs.rmdir` on each and
tolerating individual failures. -/
def removeDirectories (canRemove : String → Bool) (fs : FS) (directories : List String) :
    FS × List String :=
  removeDirsLoop canRemove fs directories.reverse

/-- The `editType === "create"` branch of
`DiffOperationHandler.revertChanges`: delete the target file, then — when
directory cleanup is requested — remove the created directories via
`removeDirectories`.  Returns the filesystem and the attempted rmdir order. -/
def revertChangesCreate (canRemove : String → Bool) (fs : FS) (absolutePath : String)
    (createdDirectories : List String) (cleanupDirectories : Bool) :
    Except String (FS × List String) :=
  match deleteFile fs absolutePath with
  | Except.error e => Except.error e
  | Except.ok fs1 =>
    if cleanupDirectories then
      Except.ok (removeDirectories canRemove fs1 createdDirectories)
    else
      Except.ok (fs1, [])

/-! Diagnostics snapshotter (`DiagnosticsManager`). -/

/-- A single host diagnostic: range, message and severity
(severity `0` is `DiagnosticSeverity.Error`). -/
structure Diagnostic where
  startLine : Nat
  startCol : Nat
  endLine : Nat
  endCol : Nat
  message : JStr
  severity : Nat
deriving DecidableEq

/-- The numeric value of `DiagnosticSeverity.Error`. -/
def severityError : Nat := 0

/-- A diagnostics snapshot: an ordered collection of (file, diagnostics)
pairs as returned by the host's diagnostics enumeration. -/
abbrev Snapshot := List (JStr × List Diagnostic)

/-- All diagnostics recorded for `file` in a snapshot. -/
def diagsForFile (snap : Snapshot) (file : JStr) : List Diagnostic :=
  match snap with
  | [] => []
  | fd :: rest => if fd.1 = file then fd.2 ++ diagsForFile rest file else diagsForFile rest file

/-- Modelled from the spec: two diagnostics have the same identity when their
ranges and messages agree (file + range + message identity; the file part is
handled by `diagsForFile`).  The underlying comparison lives in the
`integrations/diagnostics` module, which is not part of the sources. -/
def sameIdentity (d1 d2 : Diagnostic) : Bool :=
  decide (d1.startLine = d2.startLine) && decide (d1.startCol = d2.startCol) &&
    decide (d1.endLine = d2.endLine) && decide (d1.endCol = d2.endCol) &&
    decide (d1.message = d2.message)

/-- Modelled from the spec: `getNewDiagnostics` (from the
`integrations/diagnostics` module, not part of the sources) keeps, per file of
the post snapshot, exactly the diagnostics absent from the pre snapshot by
file + range + message identity. -/
def getNewDiagnostics (pre post : Snapshot) : Snapshot :=
  post.map (fun fd =>
    (fd.1, fd.2.filter (fun d => !((diagsForFile pre fd.1).any (fun d0 => sameIdentity d d0)))))

/-- Modelled from the spec: one line of the human-readable problems block for
a single diagnostic; its description is included when message inclusion is
enabled.  Every formatted entry is non-empty. -/
def formatDiagnostic (_cwd : JStr) (file : JStr) (includeMessages : Bool) (d : Diagnostic) : JStr :=
  '-' :: ' ' :: (file ++ (if includeMessages then (": ").data ++ d.message else []))

/-- Flattens a snapshot into (file, diagnostic) pairs. -/
def flattenSnapshot : Snapshot → List (JStr × Diagnostic)
  | [] => []
  | fd :: rest => fd.2.map (fun d => (fd.1, d)) ++ flattenSnapshot rest

/-- Modelled from the spec: `diagnosticsToProblemsString` (from the
`integrations/diagnostics` module, not part of the sources) filters the given
diagnostics to the requested severities, formats up to `maxCount` of them into
a block, and yields the empty string when none remain. -/
def diagnosticsToProblemsString (diags : Snapshot) (severities : List Nat) (cwd : JStr)
    (includeMessages : Bool) (maxCount : Nat) : JStr :=
  let filtered := (flattenSnapshot diags).filter (fun fd => severities.contains fd.2.severity)
  let capped := filtered.take maxCount
  (capped.map (fun fd => formatDiagnostic cwd fd.1 includeMessages fd.2)).flatten

/-- The new error-severity diagnostics considered by the primary save path:
post-snapshot diagnostics absent from the pre snapshot, filtered to error
severity. -/
def newErrorDiagnostics (pre post : Snapshot) : List (JStr × Diagnostic) :=
  (flattenSnapshot (getNewDiagnostics pre post)).filter
    (fun fd => [severityError].contains fd.2.severity)

/-- The fixed banner prefixed to a non-empty problems message. -/
def problemsBanner : JStr :=
  ("\n\nNew problems detected after saving the file:\n").data

/-- `DiagnosticsManager.processNewDiagnostics`: clamps the write delay to at
least zero, applies it (a failing delay, `delayFailed`, is caught and
ignored), computes the new diagnostics against the pre snapshot, formats the
error-severity ones, and returns the empty string when there are none,
otherwise the banner-prefixed block.  The applied delay is returned alongside
the message. -/
def processNewDiagnostics (writeDelayMs : Int) (_delayFailed : Bool) (pre post : Snapshot)
    (cwd : JStr) (includeDiagnosticMessages : Bool) (maxDiagnosticMessages : Nat) :
    Int × JStr :=
  let safeDelayMs := max 0 writeDelayMs
  let newProblems :=
    diagnosticsToProblemsString (getNewDiagnostics pre post) [severityError] cwd
      includeDiagnosticMessages maxDiagnosticMessages
  (safeDelayMs, if 0 < newProblems.length then problemsBanner ++ newProblems else [])

/-! Diff view manager (`DiffViewManager.openDiffEditor`): the wait for the
comparison editor is modelled as a state machine over the events the host can
deliver, racing two listeners against a timer, with listener/timer cleanup on
every settling transition. -/

/-- Events observable while waiting for the comparison editor. -/
inductive DVEvent where
  | docOpened (samePath : Bool) (editorVisible : Bool)
  | visibleEditorsChanged (hasMatch : Bool)
  | timerFired
  | diffCommandFailed (message : JStr)
deriving DecidableEq

/-- How the `openDiffEditor` promise settles. -/
inductive DVOutcome where
  | resolvedEditor
  | rejected (message : JStr)
deriving DecidableEq

/-- Waiting state: whether the two event listeners are still registered,
whether the timeout is still pending, and the settled outcome, if any. -/
structure DVState where
  listenersActive : Bool
  timerActive : Bool
  outcome : Option DVOutcome
deriving DecidableEq

/-- State right after `openDiffEditor` registers its listeners and timer. -/
def initialDVState : DVState :=
  { listenersActive := true, timerActive := true, outcome := none }

/-- The `cleanup` closure of `openDiffEditor`: clears the timeout and
disposes every registered listener. -/
def cleanupDV (s : DVState) : DVState :=
  { s with listenersActive := false, timerActive := false }

/-- The rejection message built on timeout: names the path and the ten-second
budget. -/
def timeoutMessage (path : JStr) : JStr :=
  ("Failed to open diff editor for ").data ++ path ++
    (" within 10 seconds. The editor may be blocked or VS Code may be unresponsive.").data

/-- The rejection message built when the host diff command fails. -/
def diffCommandMessage (path msg : JStr) : JStr :=
  ("Failed to execute diff command for ").data ++ path ++ (": ").data ++ msg

/-- One event step of the `openDiffEditor` wait: a settled promise ignores
everything; a disposed listener no longer fires; the document-opened listener
resolves when a visible editor for the path is found after the microtask
delay; the visible-editors listener resolves on a matching editor; the timer
rejects with the timeout message; a diff-command failure rejects with its
message.  Every settling transition runs `cleanup` first. -/
def dvStep (path : JStr) (s : DVState) (e : DVEvent) : DVState :=
  if s.outcome.isSome then s
  else
    match e with
    | DVEvent.docOpened samePath editorVisible =>
      if s.listenersActive && samePath && editorVisible then
        { cleanupDV s with outcome := some DVOutcome.resolvedEditor }
      else s
    | DVEvent.visibleEditorsChanged hasMatch =>
      if s.listenersActive && hasMatch then
        { cleanupDV s with outcome := some DVOutcome.resolvedEditor }
      else s
    | DVEvent.timerFired =>
      if s.timerActive then
        { cleanupDV s with outcome := some (DVOutcome.rejected (timeoutMessage path)) }
      else s
    | DVEvent.diffCommandFailed m =>
      { cleanupDV s with outcome := some (DVOutcome.rejected (diffCommandMessage path m)) }

/-- Processes a whole event sequence from the freshly registered state. -/
def openDiffEditorRun (path : JStr) (events : List DVEvent) : DVState :=
  events.foldl (dvStep path) initialDVState

/-- An event that neither resolves nor rejects the wait: a document-opened
signal for another path or with no visible editor yet, or a visible-editors
change without a match. -/
def dvInert : DVEvent → Bool
  | DVEvent.docOpened samePath editorVisible => !(samePath && editorVisible)
  | DVEvent.visibleEditorsChanged hasMatch => !hasMatch
  | DVEvent.timerFired => false
  | DVEvent.diffCommandFailed _ => false

/-! Coordinator (`DiffViewCoordinator`). -/

/-- The per-session fields of the coordinator that `update` and `saveChanges`
consult: the relative path, the accumulated streamed content, the original
content, the presence of the active comparison editor and of the two
decoration controllers, the text of the comparison editor's document, and its
first visible ranges. -/
structure CoordState where
  relPath : Option JStr
  newContent : Option JStr
  originalContent : Option JStr
  activeDiffEditor : Bool
  activeLineController : Bool
  fadedOverlayController : Bool
  doc : JStr
  visibleRanges : List (Nat × Nat)
deriving DecidableEq

/-- JavaScript truthiness of an optional string: `undefined` and the empty
string are falsy. -/
def truthy : Option JStr → Bool
  | none => false
  | some s => !s.isEmpty

/-- `DiffViewCoordinator.update`: throws when the relative path or either
decoration controller is missing; records the accumulated content; throws
when the active comparison editor is gone; otherwise delegates to
`updateStreamingContent` and reports whether `shouldScrollEditor` requested a
scroll to the new end line.  The source assigns `this.newContent` just before
the editor check; a thrown error discards the returned state here, so the
assignment is modelled inside the success branch. -/
def coordUpdate (st : CoordState) (accumulatedContent : JStr) (isFinal : Bool) :
    Except String (CoordState × Bool) :=
  if !truthy st.relPath || !st.activeLineController || !st.fadedOverlayController then
    Except.error ("Required values not set")
  else if !st.activeDiffEditor then
    Except.error ("User closed text editor, unable to edit file...")
  else
    let st1 := { st with newContent := some accumulatedContent }
    let doc' :=
      updateStreamingContent st1.doc accumulatedContent isFinal (st1.originalContent.getD [])
    let endLine := (splitOnNl accumulatedContent).length
    Except.ok ({ st1 with doc := doc' }, shouldScrollEditor st1.visibleRanges endLine)

/-- Observable side effects of the coordinator's save path. -/
inductive Effect where
  | closeAllDiffViews
  | showTextDocument (path : JStr)
  | runDiagnostics
  | writeFile (path : JStr) (content : JStr)
deriving DecidableEq

/-- The result triple of `DiffViewCoordinator.saveChanges`. -/
structure CoordSaveResult where
  newProblemsMessage : Option JStr
  userEdits : Option JStr
  finalContent : Option JStr
deriving DecidableEq

/-- `DiffViewCoordinator.saveChanges`: when the relative path, the
accumulated content or the active comparison editor is unset (JavaScript
truthiness, so an empty accumulated string counts as unset) it returns the
all-undefined result and performs no effect; otherwise it closes the diff
views and delegates to the operation handler, which shows the real document,
runs diagnostics when enabled, and writes the normalized edited content. -/
def coordSaveChanges (st : CoordState) (diagnosticsEnabled : Bool) (problemsIfEnabled : JStr) :
    CoordSaveResult × List Effect :=
  if !truthy st.relPath || !truthy st.newContent || !st.activeDiffEditor then
    ({ newProblemsMessage := none, userEdits := none, finalContent := none }, [])
  else
    let editedContent := st.doc
    let h := saveChangesHandler editedContent (st.newContent.getD []) problemsIfEnabled
      diagnosticsEnabled
    ({ newProblemsMessage := some h.newProblemsMessage
       userEdits := h.userEdits
       finalContent := some h.finalContent },
      [Effect.closeAllDiffViews, Effect.showTextDocument (st.relPath.getD [])] ++
        (if diagnosticsEnabled then [Effect.runDiagnostics] else []) ++
        [Effect.writeFile (st.relPath.getD []) h.written])

/-! Sample values used by witness theorems. -/

/-- A sample error-severity diagnostic. -/
def sampleDiagnostic : Diagnostic :=
  { startLine := 0, startCol := 0, endLine := 0, endCol := 5,
    message := ("boom").data, severity := severityError }

/-- A sample post snapshot containing one new error diagnostic. -/
def samplePost : Snapshot :=
  [((("src/a.ts").data), [sampleDiagnostic])]

/-- A live editing session state with everything set. -/
def sampleEditingState : CoordState :=
  { relPath := some (("a.ts").data), newContent := some (("x").data),
    originalContent := some [], activeDiffEditor := true,
    activeLineController := true, fadedOverlayController := true,
    doc := [], visibleRanges := [] }

/-- An editing session state whose comparison editor is gone. -/
def sampleClosedEditorState : CoordState :=
  { sampleEditingState with activeDiffEditor := false }

/-! Helper lemmas. -/

theorem mem_bomPass_ne {s : JStr} {a : Char} (h : a ∈ bomPass s) :
    a ≠ bomFEFF ∧ a ≠ bomFFFE := by
  unfold bomPass removeAllChar at h
  have h1 := List.of_mem_filter h
  have h2 := List.mem_of_mem_filter h
  have h3 := List.of_mem_filter h2
  constructor
  · simpa using h3
  · simpa using h1

theorem stripLeadingChar_of_clean {c : Char} {s : JStr} (h : ∀ a ∈ s, a ≠ c) :
    stripLeadingChar c s = s := by
  cases s with
  | nil => rfl
  | cons a t =>
    simp [stripLeadingChar, h a (List.mem_cons_self a t)]

theorem removeAllChar_of_clean {c : Char} {s : JStr} (h : ∀ a ∈ s, a ≠ c) :
    removeAllChar c s = s := by
  unfold removeAllChar
  apply List.filter_eq_self.mpr
  intro a ha
  simpa using h a ha

theorem bomPass_of_clean {s : JStr} (h : ∀ a ∈ s, a ≠ bomFEFF ∧ a ≠ bomFFFE) :
    bomPass s = s := by
  unfold bomPass
  rw [stripLeadingChar_of_clean (fun a ha => (h a ha).1),
    stripLeadingChar_of_clean (fun a ha => (h a ha).2),
    removeAllChar_of_clean (fun a ha => (h a ha).1),
    removeAllChar_of_clean (fun a ha => (h a ha).2)]

theorem bomPass_idem (s : JStr) : bomPass (bomPass s) = bomPass s :=
  bomPass_of_clean (fun _ ha => mem_bomPass_ne ha)

theorem stripBOMLoop_of_fixed {r : JStr} (n : Nat) (h : bomPass r = r) :
    stripBOMLoop (n + 1) r = r := by
  unfold stripBOMLoop
  simp [h]

theorem stripAllBOMs_eq_bomPass (s : JStr) : stripAllBOMs s = bomPass s := by
  unfold stripAllBOMs
  by_cases h : bomPass s = s
  · rw [stripBOMLoop_of_fixed s.length h, h]
  · cases s with
    | nil => exact absurd rfl h
    | cons a t =>
      show stripBOMLoop (t.length + 1 + 1) (a :: t) = bomPass (a :: t)
      unfold stripBOMLoop
      simp only [h, if_false]
      exact stripBOMLoop_of_fixed t.length (bomPass_idem (a :: t))

/-! Claim theorems. -/

/-- C4: the Content Normalizer's `stripAllBOMs` is idempotent, its result
contains no U+FEFF or U+FFFE code point anywhere, and the input
the spec example (two leading BOMs, one interior, one trailing) strips to `"HelloWorld"`. -/
theorem c4_stripAllBOMs_idempotent_and_clean :
    (∀ s : JStr,
      stripAllBOMs (stripAllBOMs s) = stripAllBOMs s
      ∧ (stripAllBOMs s).all (fun a => decide (a ≠ bomFEFF) && decide (a ≠ bomFFFE)) = true)
    ∧ stripAllBOMs (("\uFEFF\uFFFEHello\uFEFFWorld\uFFFE").data) = ("HelloWorld").data := by
  constructor
  · intro s
    constructor
    · rw [stripAllBOMs_eq_bomPass s, stripAllBOMs_eq_bomPass (bomPass s), bomPass_idem]
    · rw [stripAllBOMs_eq_bomPass s, List.all_eq_true]
      intro a ha
      have h := mem_bomPass_ne ha
      simp [h.1, h.2]
  · decide

/-- C2: in the save operation, `userEdits` is `undefined` exactly when the
BOM-stripped, EOL-normalized live editor text equals the EOL-normalized
proposed content, and whenever it is defined it equals the raw, un-normalized
editor text. -/
theorem c2_userEdits_iff_normalized_differ :
    (∀ (editedContent newContent problems : JStr) (d : Bool),
      (saveChangesHandler editedContent newContent problems d).userEdits = none ↔
        normalizeEOL (stripAllBOMs editedContent) (detectLineEnding newContent) =
          normalizeEOL newContent (detectLineEnding newContent))
    ∧ (∀ (editedContent newContent problems : JStr) (d : Bool) (u : JStr),
      (saveChangesHandler editedContent newContent problems d).userEdits = some u →
        u = editedContent) := by
  constructor
  · intro editedContent newContent problems d
    by_cases h :
        normalizeEOL (stripAllBOMs editedContent) (detectLineEnding newContent) =
          normalizeEOL newContent (detectLineEnding newContent) <;>
      simp [saveChangesHandler, h]
  · intro editedContent newContent problems d u hu
    by_cases h :
        normalizeEOL (stripAllBOMs editedContent) (detectLineEnding newContent) =
          normalizeEOL newContent (detectLineEnding newContent) <;>
      simp [saveChangesHandler, h] at hu
    exact hu.symm

/-- C2 witness: with edited text `"a\nb "` against proposed `"a\nb"` the
normalized texts differ, `userEdits` is the raw edited text, and the
conclusion of the claim theorem holds at this input. -/
theorem c2_witness :
    (saveChangesHandler (("a\nb ").data) (("a\nb").data) [] true).userEdits =
      some (("a\nb ").data)
    ∧ (("a\nb ").data : JStr) = ("a\nb ").data :=
  ⟨by decide,
    c2_userEdits_iff_normalized_differ.2 (("a\nb ").data) (("a\nb").data) [] true
      (("a\nb ").data) (by decide)⟩

/-- C3: `saveChanges` writes to disk exactly the BOM-stripped live editor
text normalized to the EOL detected from the proposed content, returns that
same string as `finalContent`, and with no user edits the written bytes equal
the normalized proposed content. -/
theorem c3_save_writes_normalized_edited :
    (∀ (editedContent newContent problems : JStr) (d : Bool),
      (saveChangesHandler editedContent newContent problems d).written =
        normalizeEOL (stripAllBOMs editedContent) (detectLineEnding newContent)
      ∧ (saveChangesHandler editedContent newContent problems d).finalContent =
        (saveChangesHandler editedContent newContent problems d).written)
    ∧ (∀ (editedContent newContent problems : JStr) (d : Bool),
      (saveChangesHandler editedContent newContent problems d).userEdits = none →
        (saveChangesHandler editedContent newContent problems d).written =
          normalizeEOL newContent (detectLineEnding newContent)) := by
  constructor
  · intro editedContent newContent problems d
    exact ⟨rfl, rfl⟩
  · intro editedContent newContent problems d h
    by_cases heq :
        normalizeEOL (stripAllBOMs editedContent) (detectLineEnding newContent) =
          normalizeEOL newContent (detectLineEnding newContent)
    · show normalizeEOL (stripAllBOMs editedContent) (detectLineEnding newContent) =
        normalizeEOL newContent (detectLineEnding newContent)
      exact heq
    · simp [saveChangesHandler, heq] at h

/-- C3 witness: saving `"a\nb"` against proposed `"a\nb"` detects no user
edits and the written bytes equal the normalized proposed content. -/
theorem c3_witness :
    (saveChangesHandler (("a\nb").data) (("a\nb").data) [] true).userEdits = none
    ∧ (saveChangesHandler (("a\nb").data) (("a\nb").data) [] true).written =
      normalizeEOL (("a\nb").data) (detectLineEnding (("a\nb").data)) :=
  ⟨by decide,
    c3_save_writes_normalized_edited.2 (("a\nb").data) (("a\nb").data) [] true (by decide)⟩

/-- C1: evaluation of `updateStreamingContent` on a final update, at original
content `"x\n"` (trailing newline) with final accumulated content `"a\nb"`
and the document still holding the original: the finalized document is
`"a\nb\nb\n"`, not the claimed `"a\nb"` plus exactly one trailing newline;
and at original `"x"` (no trailing newline) the finalized document
`"a\nba\nb\n"` gains a trailing newline the original did not have.  The
final full-content replace computes its range from the original content's
line count instead of the current content's, leaving the stale tail in
place. -/
theorem c1_finalized_document_diverges :
    updateStreamingContent (("x\n").data) (("a\nb").data) true (("x\n").data) =
      ("a\nb\nb\n").data
    ∧ updateStreamingContent (("x").data) (("a\nb").data) true (("x").data) =
      ("a\nba\nb\n").data
    ∧ endsWithNl (("a\nba\nb\n").data) = true
    ∧ endsWithNl (("x").data) = false
    ∧ ("a\nb\nb\n").data ≠ ("a\nb\n").data := by
  decide

/-- C8 counterexample: with first visible range `(0, 10)` and end line `5`,
`shouldScrollEditor` requests a scroll although the end line is on-screen
(not off-screen under the spec's reading), refuting the claim that a scroll
is issued only when the new content would otherwise be off-screen. -/
theorem c8_counterexample :
    shouldScrollEditor [(0, 10)] 5 = true ∧ offScreenSpec [(0, 10)] 5 = false := by
  decide

/-- C8 (amended): `shouldScrollEditor` requests a scroll exactly when the
first visible range strictly straddles the new end-of-content line
(`start < endLine < end`), i.e. only while the end of the streamed content is
currently inside the first visible range; in particular it does not scroll on
every update — never with no visible range, and never when the end line sits
at or beyond the bottom of the first visible range. -/
theorem c8_scroll_iff_straddle :
    (∀ (visibleRanges : List (Nat × Nat)) (endLine : Nat),
      shouldScrollEditor visibleRanges endLine = true ↔
        ∃ s e rest, visibleRanges = (s, e) :: rest ∧ s < endLine ∧ endLine < e)
    ∧ shouldScrollEditor [] 7 = false
    ∧ shouldScrollEditor [(0, 10)] 10 = false := by
  refine ⟨?_, by decide, by decide⟩
  intro visibleRanges endLine
  cases visibleRanges with
  | nil => simp [shouldScrollEditor]
  | cons r rest =>
    obtain ⟨s, e⟩ := r
    simp only [shouldScrollEditor, Bool.and_eq_true, decide_eq_true_eq]
    constructor
    · intro h
      exact ⟨s, e, rest, rfl, h.1, h.2⟩
    · rintro ⟨s', e', rest', heq, h1, h2⟩
      cases heq
      exact ⟨h1, h2⟩

theorem removeDirsLoop_trace (c : String → Bool) :
    ∀ (l : List String) (fs : FS), (removeDirsLoop c fs l).2 = l := by
  intro l
  induction l with
  | nil => intro fs; rfl
  | cons d rest ih =>
    intro fs
    simp [removeDirsLoop, ih]

theorem removeDirsLoop_files (c : String → Bool) :
    ∀ (l : List String) (fs : FS), (removeDirsLoop c fs l).1.files = fs.files := by
  intro l
  induction l with
  | nil => intro fs; rfl
  | cons d rest ih =>
    intro fs
    show (removeDirsLoop c _ rest).1.files = fs.files
    rw [ih]
    by_cases h : c d = true <;> simp [h]

theorem dvStep_settled {path : JStr} {s : DVState} (e : DVEvent)
    (h : s.outcome.isSome = true) : dvStep path s e = s := by
  simp [dvStep, h]

theorem foldl_dvStep_settled {path : JStr} :
    ∀ (l : List DVEvent) (s : DVState), s.outcome.isSome = true →
      l.foldl (dvStep path) s = s := by
  intro l
  induction l with
  | nil => intro s _; rfl
  | cons e rest ih =>
    intro s h
    rw [List.foldl_cons, dvStep_settled e h, ih s h]

theorem dvStep_inert_initial {path : JStr} {e : DVEvent} (h : dvInert e = true) :
    dvStep path initialDVState e = initialDVState := by
  cases e with
  | docOpened samePath editorVisible =>
    simp [dvInert] at h
    simp [dvStep, initialDVState, h]
    intro hs
    simp [hs] at h
    simp [h]
  | visibleEditorsChanged hasMatch =>
    simp [dvInert] at h
    simp [dvStep, initialDVState, h]
  | timerFired => simp [dvInert] at h
  | diffCommandFailed m => simp [dvInert] at h

theorem foldl_dvStep_inert {path : JStr} :
    ∀ (pre : List DVEvent), (∀ e ∈ pre, dvInert e = true) →
      pre.foldl (dvStep path) initialDVState = initialDVState := by
  intro pre
  induction pre with
  | nil => intro _; rfl
  | cons e rest ih =>
    intro h
    rw [List.foldl_cons, dvStep_inert_initial (h e (List.mem_cons_self e rest)),
      ih (fun x hx => h x (List.mem_cons_of_mem e hx))]

theorem dvStep_cleanup_inv {path : JStr} {s : DVState} (e : DVEvent)
    (hs : s.outcome.isSome = true → s.listenersActive = false ∧ s.timerActive = false) :
    (dvStep path s e).outcome.isSome = true →
      (dvStep path s e).listenersActive = false ∧ (dvStep path s e).timerActive = false := by
  by_cases h : s.outcome.isSome = true
  · rw [dvStep_settled e h]
    exact hs
  · unfold dvStep
    rw [if_neg h]
    cases e with
    | docOpened samePath editorVisible =>
      by_cases hc : (s.listenersActive && samePath && editorVisible) = true
      · simp [hc, cleanupDV]
      · simp only [Bool.not_eq_true] at hc
        simp [hc, h]
    | visibleEditorsChanged hasMatch =>
      by_cases hc : (s.listenersActive && hasMatch) = true
      · simp [hc, cleanupDV]
      · simp only [Bool.not_eq_true] at hc
        simp [hc, h]
    | timerFired =>
      by_cases hc : s.timerActive = true
      · simp [hc, cleanupDV]
      · simp only [Bool.not_eq_true] at hc
        simp [hc, h]
    | diffCommandFailed m => simp [cleanupDV]

theorem foldl_dvStep_cleanup_inv {path : JStr} :
    ∀ (l : List DVEvent) (s : DVState),
      (s.outcome.isSome = true → s.listenersActive = false ∧ s.timerActive = false) →
      ((l.foldl (dvStep path) s).outcome.isSome = true →
        (l.foldl (dvStep path) s).listenersActive = false
        ∧ (l.foldl (dvStep path) s).timerActive = false) := by
  intro l
  induction l with
  | nil => intro s hs; exact hs
  | cons e rest ih =>
    intro s hs
    rw [List.foldl_cons]
    exact ih (dvStep path s e) (dvStep_cleanup_inv e hs)

theorem flatten_formats_eq_nil_iff (cwd : JStr) (im : Bool)
    (l : List (JStr × Diagnostic)) :
    (l.map (fun fd => formatDiagnostic cwd fd.1 im fd.2)).flatten = [] ↔ l = [] := by
  cases l with
  | nil => simp
  | cons a t => simp [formatDiagnostic]

theorem take_eq_nil_iff_of_pos {α : Type} {n : Nat} (h : 0 < n) (l : List α) :
    l.take n = [] ↔ l = [] := by
  cases l with
  | nil => simp
  | cons a t =>
    cases n with
    | zero => exact absurd h (by simp)
    | succ m => simp [List.take]

theorem coordUpdate_ok_newContent {st : CoordState} {acc : JStr} {isFinal : Bool}
    {r : CoordState × Bool} (h : coordUpdate st acc isFinal = Except.ok r) :
    r.1.newContent = some acc := by
  unfold coordUpdate at h
  by_cases h1 : (!truthy st.relPath || !st.activeLineController || !st.fadedOverlayController) = true
  · rw [if_pos h1] at h
    cases h
  · rw [if_neg h1] at h
    by_cases h2 : (!st.activeDiffEditor) = true
    · rw [if_pos h2] at h
      cases h
    · rw [if_neg h2] at h
      simp only [Except.ok.injEq] at h
      rw [← h]

/-- C5: if the comparison editor never becomes available and the ten-second
timer fires, `openDiffEditor` rejects with the timeout message, which names
the path and the ten-second budget; and on every settled outcome (success,
timeout, or diff-command failure) the registered listeners and the pending
timer are disposed. -/
theorem c5_timeout_rejects_and_disposes :
    (∀ (path : JStr) (pre post : List DVEvent),
      (∀ e ∈ pre, dvInert e = true) →
      openDiffEditorRun path (pre ++ DVEvent.timerFired :: post) =
        { listenersActive := false, timerActive := false,
          outcome := some (DVOutcome.rejected (timeoutMessage path)) })
    ∧ (∀ path : JStr, ∃ u v u2 v2 : JStr,
      timeoutMessage path = u ++ path ++ v
      ∧ timeoutMessage path = u2 ++ ("10 seconds").data ++ v2)
    ∧ (∀ (path : JStr) (events : List DVEvent),
      (openDiffEditorRun path events).outcome.isSome = true →
        (openDiffEditorRun path events).listenersActive = false
        ∧ (openDiffEditorRun path events).timerActive = false) := by
  refine ⟨?_, ?_, ?_⟩
  · intro path pre post h
    unfold openDiffEditorRun
    rw [List.foldl_append, foldl_dvStep_inert pre h, List.foldl_cons]
    have hstep : dvStep path initialDVState DVEvent.timerFired =
        { listenersActive := false, timerActive := false,
          outcome := some (DVOutcome.rejected (timeoutMessage path)) } := by
      simp [dvStep, initialDVState, cleanupDV]
    rw [hstep]
    exact foldl_dvStep_settled post _ rfl
  · intro path
    refine ⟨(("Failed to open diff editor for ").data),
      ((" within 10 seconds. The editor may be blocked or VS Code may be unresponsive.").data),
      (("Failed to open diff editor for ").data) ++ path ++ ((" within ").data),
      ((". The editor may be blocked or VS Code may be unresponsive.").data), rfl, ?_⟩
    have hsplit :
        ((" within 10 seconds. The editor may be blocked or VS Code may be unresponsive.").data
          : JStr) =
        ((" within ").data) ++ (("10 seconds").data) ++
          ((". The editor may be blocked or VS Code may be unresponsive.").data) := by
      decide
    unfold timeoutMessage
    rw [hsplit]
    simp [List.append_assoc]
  · intro path events
    exact foldl_dvStep_cleanup_inv events initialDVState (by intro h; simp [initialDVState] at h)

/-- C5 witness: with one non-matching visible-editors event followed by the
timer, the run rejects with the timeout message for the path and leaves no
listener or timer registered. -/
theorem c5_witness :
    openDiffEditorRun (("src/a.ts").data)
        ([DVEvent.visibleEditorsChanged false] ++ DVEvent.timerFired :: []) =
      { listenersActive := false, timerActive := false,
        outcome := some (DVOutcome.rejected (timeoutMessage (("src/a.ts").data))) } :=
  c5_timeout_rejects_and_disposes.1 (("src/a.ts").data)
    [DVEvent.visibleEditorsChanged false] [] (by decide)

/-- C6: reverting a Create-kind session deletes the target file (so a
subsequent `fileExists` returns false, and no other file is touched) and
attempts to remove every created directory in reverse creation order,
with each individual removal failure swallowed rather than raised — the
operation succeeds and the full reversed attempt sequence is issued no matter
which removals the filesystem rejects. -/
theorem c6_revert_create_cleanup :
    ∀ (canRemove : String → Bool) (fs : FS) (p : String) (dirs : List String),
      fileExists fs p = true →
      ∃ fs2 : FS,
        revertChangesCreate canRemove fs p dirs true = Except.ok (fs2, dirs.reverse)
        ∧ fileExists fs2 p = false
        ∧ fs2.files = fs.files.filter (fun q => q ≠ p) := by
  intro canRemove fs p dirs h
  unfold revertChangesCreate deleteFile
  unfold fileExists at h
  rw [if_pos h]
  refine ⟨(removeDirectories canRemove
    { fs with files := fs.files.filter (fun q => q ≠ p) } dirs).1, ?_, ?_, ?_⟩
  · show Except.ok ((removeDirectories canRemove _ dirs).1,
      (removeDirectories canRemove _ dirs).2) = _
    rw [show (removeDirectories canRemove
        { fs with files := fs.files.filter (fun q => q ≠ p) } dirs).2 = dirs.reverse from
      removeDirsLoop_trace canRemove dirs.reverse _]
  · unfold fileExists
    rw [show (removeDirectories canRemove
        { fs with files := fs.files.filter (fun q => q ≠ p) } dirs).1.files =
        fs.files.filter (fun q => q ≠ p) from removeDirsLoop_files canRemove dirs.reverse _]
    simp
  · exact removeDirsLoop_files canRemove dirs.reverse _

/-- C6 witness: a filesystem holding the created file and two scaffolded
directories, where every rmdir fails: the revert still succeeds, the file is
gone, and both directories were attempted innermost-first. -/
theorem c6_witness :
    fileExists { files := ["w/d1/d2/a.txt"], dirs := ["w/d1", "w/d1/d2"] } ("w/d1/d2/a.txt") = true
    ∧ ∃ fs2 : FS,
      revertChangesCreate (fun _ => false)
          { files := ["w/d1/d2/a.txt"], dirs := ["w/d1", "w/d1/d2"] }
          ("w/d1/d2/a.txt") ["w/d1", "w/d1/d2"] true =
        Except.ok (fs2, ["w/d1", "w/d1/d2"].reverse)
      ∧ fileExists fs2 ("w/d1/d2/a.txt") = false
      ∧ fs2.files = ["w/d1/d2/a.txt"].filter (fun q => q ≠ ("w/d1/d2/a.txt")) :=
  ⟨by decide,
    c6_revert_create_cleanup (fun _ => false)
      { files := ["w/d1/d2/a.txt"], dirs := ["w/d1", "w/d1/d2"] }
      ("w/d1/d2/a.txt") ["w/d1", "w/d1/d2"] (by decide)⟩

/-- C7: `processNewDiagnostics` clamps the write delay to at least zero, its
result does not depend on whether the delay failed, it returns the empty
string exactly when no error-severity diagnostic is new in the post snapshot
relative to the pre snapshot, and otherwise returns the banner followed by
the formatted block of those new error diagnostics (up to the configured
maximum count). -/
theorem c7_process_new_diagnostics_contract :
    ∀ (w : Int) (df : Bool) (pre post : Snapshot) (cwd : JStr) (im : Bool) (mc : Nat),
      0 < mc →
      (processNewDiagnostics w df pre post cwd im mc).1 = max 0 w
      ∧ 0 ≤ (processNewDiagnostics w df pre post cwd im mc).1
      ∧ processNewDiagnostics w df pre post cwd im mc =
          processNewDiagnostics w (!df) pre post cwd im mc
      ∧ ((processNewDiagnostics w df pre post cwd im mc).2 = [] ↔
          newErrorDiagnostics pre post = [])
      ∧ (newErrorDiagnostics pre post ≠ [] →
          (processNewDiagnostics w df pre post cwd im mc).2 =
            problemsBanner ++
              (((newErrorDiagnostics pre post).take mc).map
                (fun fd => formatDiagnostic cwd fd.1 im fd.2)).flatten) := by
  intro w df pre post cwd im mc hmc
  have hnp : (processNewDiagnostics w df pre post cwd im mc).2 =
      (if 0 < ((((newErrorDiagnostics pre post).take mc).map
          (fun fd => formatDiagnostic cwd fd.1 im fd.2)).flatten).length then
        problemsBanner ++ (((newErrorDiagnostics pre post).take mc).map
          (fun fd => formatDiagnostic cwd fd.1 im fd.2)).flatten
      else []) := rfl
  have hiff : (((newErrorDiagnostics pre post).take mc).map
      (fun fd => formatDiagnostic cwd fd.1 im fd.2)).flatten = [] ↔
      newErrorDiagnostics pre post = [] := by
    rw [flatten_formats_eq_nil_iff, take_eq_nil_iff_of_pos hmc]
  refine ⟨rfl, le_max_left 0 w, rfl, ?_, ?_⟩
  · rw [hnp]
    by_cases hz :
        (((newErrorDiagnostics pre post).take mc).map
          (fun fd => formatDiagnostic cwd fd.1 im fd.2)).flatten = []
    · rw [hz]
      simp [hiff.mp hz]
    · have hlen : 0 < (((newErrorDiagnostics pre post).take mc).map
          (fun fd => formatDiagnostic cwd fd.1 im fd.2)).flatten.length :=
        List.length_pos.mpr hz
      rw [if_pos hlen]
      constructor
      · intro hcontra
        rcases List.append_eq_nil.mp hcontra with ⟨hb, _⟩
        exact absurd hb (by decide)
      · intro hcontra
        exact absurd (hiff.mpr hcontra) hz
  · intro hne
    rw [hnp]
    have hz : (((newErrorDiagnostics pre post).take mc).map
        (fun fd => formatDiagnostic cwd fd.1 im fd.2)).flatten ≠ [] :=
      fun hc => hne (hiff.mp hc)
    rw [if_pos (List.length_pos.mpr hz)]

/-- C7 witness: an empty pre snapshot against a post snapshot with one new
error diagnostic yields a non-empty banner-prefixed message, the negative
delay is clamped to zero, and the delay-failure flag does not matter. -/
theorem c7_witness :
    (0 : Nat) < 50
    ∧ (processNewDiagnostics (-5) true [] samplePost [] true 50).1 = max 0 (-5)
    ∧ ((processNewDiagnostics (-5) true [] samplePost [] true 50).2 = [] ↔
        newErrorDiagnostics [] samplePost = [])
    ∧ newErrorDiagnostics [] samplePost ≠ [] :=
  ⟨by decide,
    (c7_process_new_diagnostics_contract (-5) true [] samplePost [] true 50 (by decide)).1,
    (c7_process_new_diagnostics_contract (-5) true [] samplePost [] true 50 (by decide)).2.2.2.1,
    by decide⟩

/-- C9: while a session is editing, `update` throws a descriptive error when
the active comparison editor is gone (rather than silently no-opping), and
throws when the relative path or either decoration controller is missing. -/
theorem c9_update_fails_fast :
    (∀ (st : CoordState) (acc : JStr) (isFinal : Bool),
      truthy st.relPath = true → st.activeLineController = true →
      st.fadedOverlayController = true → st.activeDiffEditor = false →
      coordUpdate st acc isFinal =
        Except.error ("User closed text editor, unable to edit file..."))
    ∧ (∀ (st : CoordState) (acc : JStr) (isFinal : Bool),
      (truthy st.relPath = false ∨ st.activeLineController = false ∨
        st.fadedOverlayController = false) →
      coordUpdate st acc isFinal = Except.error ("Required values not set")) := by
  constructor
  · intro st acc isFinal h1 h2 h3 h4
    simp [coordUpdate, h1, h2, h3, h4]
  · intro st acc isFinal h
    rcases h with h | h | h <;> simp [coordUpdate, h]

/-- C9 witness: a fully initialized session whose comparison editor was
closed makes `update` fail with the lost-editor error. -/
theorem c9_witness :
    coordUpdate sampleClosedEditorState (("y").data) false =
      Except.error ("User closed text editor, unable to edit file...") :=
  c9_update_fails_fast.1 sampleClosedEditorState (("y").data) false
    (by decide) (by decide) (by decide) (by decide)

/-- C10: the coordinator's `saveChanges` returns the all-undefined result and
performs no effect (no diff-view closing, no write, no diagnostics) whenever
the relative path, the accumulated content or the active comparison editor is
unset; in particular after an `update` that delivered the empty string, whose
result the guard treats as unset. -/
theorem c10_save_guard_no_effects :
    (∀ (st : CoordState) (d : Bool) (p : JStr),
      (truthy st.relPath = false ∨ truthy st.newContent = false ∨
        st.activeDiffEditor = false) →
      coordSaveChanges st d p =
        ({ newProblemsMessage := none, userEdits := none, finalContent := none }, []))
    ∧ (∀ (st : CoordState) (d : Bool) (p : JStr) (r : CoordState × Bool),
      coordUpdate st [] false = Except.ok r →
      coordSaveChanges r.1 d p =
        ({ newProblemsMessage := none, userEdits := none, finalContent := none }, [])) := by
  have guard : ∀ (st : CoordState) (d : Bool) (p : JStr),
      (truthy st.relPath = false ∨ truthy st.newContent = false ∨
        st.activeDiffEditor = false) →
      coordSaveChanges st d p =
        ({ newProblemsMessage := none, userEdits := none, finalContent := none }, []) := by
    intro st d p h
    rcases h with h | h | h <;> simp [coordSaveChanges, h]
  refine ⟨guard, ?_⟩
  intro st d p r h
  have hnc : r.1.newContent = some [] := coordUpdate_ok_newContent h
  exact guard r.1 d p (Or.inr (Or.inl (by rw [hnc]; rfl)))

/-- C10 witness: after an `update` delivering the empty string on a live
session, `saveChanges` returns the all-undefined triple with no effects. -/
theorem c10_witness :
    coordSaveChanges ({ sampleEditingState with newContent := some [] }) true [] =
      ({ newProblemsMessage := none, userEdits := none, finalContent := none }, []) :=
  c10_save_guard_no_effects.2 sampleEditingState true []
    ({ sampleEditingState with newContent := some [] }, false) (by decide)

end RooDiff
